import Mathlib

/-!
Verification of the Qleaner leftover-detection engine (src/app.py).

The engine's data are plain Python strings; we model them as lists of
characters (`Str`).  Python's `s.lower()` is modelled character-wise with
`Char.toLower` (the identifiers involved are ASCII), `a in b` (substring
containment) as list-infix, `a.startswith(b)` as list-prefix, and
`s.split('.')` / `s.split('.', 1)` with explicit recursive functions that
reproduce Python's semantics (a split always yields at least one part,
and trailing separators yield empty parts).

Each of the seven category detectors of src/app.py walks one directory;
the walk itself is abstracted into the list of (entry name, entry size)
pairs the detector would see, and the per-entry decision (skip-list
filter, ownership test against the installed-identifier index, size
threshold, emission of a `LeftoverItem`) is translated faithfully from
the source.  Display-only fields of the Python `LeftoverItem` dataclass
(`id`, `path`, `hint`, `size_human`, `detection_source`) are string
formatting with no decision content and are not modelled; the fields the
specification constrains (`bundle_id`, `name`, `category`, `confidence`,
`size`, `selected`) are kept.
-/

namespace Qleaner

/-- Python strings, modelled as lists of characters. -/
abbrev Str := List Char

/-- Python `s.lower()`, character-wise (ASCII). -/
def lower (s : Str) : Str := s.map Char.toLower

/-- Python `a in b`: `a` occurs as a contiguous substring of `b`. -/
def isSub (a b : Str) : Bool := decide (a <:+: b)

/-- Python `b.startswith(a)`: `a` is a leading segment of `b`. -/
def isPre (a b : Str) : Bool := decide (a <+: b)

/-- Python `s.split('.')`: always at least one part; separators at the
ends or adjacent to each other yield empty parts. -/
def splitDot : Str → List Str
  | [] => [[]]
  | c :: rest =>
    if c = '.' then [] :: splitDot rest
    else
      match splitDot rest with
      | [] => [[c]]
      | h :: t => (c :: h) :: t

/-- Python `s.split('.', 1)` in the case a dot occurs: the part before
the first dot and the remainder after it; `none` when `s` has no dot. -/
def splitOnceDot : Str → Option (Str × Str)
  | [] => none
  | c :: rest =>
    if c = '.' then some ([], rest)
    else
      match splitOnceDot rest with
      | some p => some (c :: p.1, p.2)
      | none => none

/-! ### NameInferencer (src/app.py `infer_app_name`) -/

/-- The regex class `[a-z]` of `re.sub(r'([a-z])([A-Z])', ...)`. -/
def reLower (c : Char) : Bool := decide (97 ≤ c.toNat ∧ c.toNat ≤ 122)

/-- The regex class `[A-Z]` of `re.sub(r'([a-z])([A-Z])', ...)`. -/
def reUpper (c : Char) : Bool := decide (65 ≤ c.toNat ∧ c.toNat ≤ 90)

/-- Python `re.sub(r'([a-z])([A-Z])', r'\1 \2', name)`: left-to-right,
non-overlapping replacement, consuming both matched characters. -/
def reSubCamel : Str → Str
  | [] => []
  | [a] => [a]
  | a :: b :: rest =>
    if reLower a && reUpper b then a :: ' ' :: b :: reSubCamel rest
    else a :: reSubCamel (b :: rest)

/-- Python `s.replace(a, b)` for single characters. -/
def replaceChar (a b : Char) (s : Str) : Str :=
  s.map (fun c => if c = a then b else c)

/-- One step of Python `str.title()`; the flag records whether the
previous character was cased. -/
def titleAux : Bool → Str → Str
  | _, [] => []
  | prevCased, c :: rest =>
    if c.isAlpha then
      (if prevCased then c.toLower else c.toUpper) :: titleAux true rest
    else c :: titleAux false rest

/-- Python `s.title()` (ASCII): first letter of each word uppercased,
later letters of a word lowercased, other characters unchanged. -/
def titleStr (s : Str) : Str := titleAux false s

/-- The fixed placeholder label returned for an empty identifier. -/
def unknownAppLabel : Str := ['U', 'n', 'k', 'n', 'o', 'w', 'n', ' ', 'A', 'p', 'p']

/-- src/app.py `infer_app_name`: final dot-separated segment, camel-case
split, dash/underscore to spaces, title-cased.  The `1 ≤ parts.length`
guard and the trailing `return bundle_id` are in the source (the guard is
always true there as well). -/
def infer_app_name (bundle_id : Str) : Str :=
  if bundle_id = [] then unknownAppLabel
  else
    let parts := splitDot bundle_id
    if 1 ≤ parts.length then
      titleStr (replaceChar '_' ' ' (replaceChar '-' ' '
        (reSubCamel (parts.getLastD []))))
    else bundle_id

/-! ### LeftoverItem (src/app.py dataclass, decision-relevant fields) -/

/-- Confidence levels of emitted leftovers. -/
inductive Confidence
  | high
  | medium
  | low
  deriving DecidableEq

/-- The seven artifact categories. -/
inductive Category
  | containers
  | groupContainers
  | preferences
  | appSupport
  | launchAgents
  | caches
  | logs
  deriving DecidableEq

/-- Decision-relevant fields of the Python `LeftoverItem` dataclass. -/
structure LeftoverItem where
  bundle_id : Str
  name : Str
  category : Category
  confidence : Confidence
  size : Nat
  selected : Bool
  deriving DecidableEq

/-! ### Skip-lists (verbatim from src/app.py) -/

/-- src/app.py `detect_preference_orphans` skip_prefixes. -/
def prefSkipList : List Str :=
  [ ['c', 'o', 'm', '.', 'a', 'p', 'p', 'l', 'e', '.'],
    ['o', 'r', 'g', '.', 'p', 'y', 't', 'h', 'o', 'n', '.'],
    ['c', 'o', 'm', '.', 'g', 'i', 't', 'h', 'u', 'b', '.'],
    ['l', 'o', 'g', 'i', 'n', 'w', 'i', 'n', 'd', 'o', 'w'],
    ['p', 'b', 's'],
    ['s', 'y', 's', 't', 'e', 'm', 's', 'o', 'u', 'n', 'd', 's', 'e', 'r', 'v', 'e', 'r', 'd'],
    ['C', 'o', 'n', 't', 'e', 'x', 't', 'S', 't', 'o', 'r', 'e', 'A', 'g', 'e', 'n', 't'],
    ['N', 'S', 'G', 'l', 'o', 'b', 'a', 'l', 'D', 'o', 'm', 'a', 'i', 'n'] ]

/-- src/app.py `detect_app_support_orphans` skip_folders. -/
def appSupportSkipList : List Str :=
  [ ['A', 'd', 'd', 'r', 'e', 's', 's', 'B', 'o', 'o', 'k'],
    ['A', 'p', 'p', 'S', 't', 'o', 'r', 'e'],
    ['C', 'a', 'l', 'l', 'H', 'i', 's', 't', 'o', 'r', 'y', 'D', 'B'],
    ['C', 'l', 'o', 'u', 'd', 'D', 'o', 'c', 's'],
    ['C', 'r', 'a', 's', 'h', 'R', 'e', 'p', 'o', 'r', 't', 'e', 'r'],
    ['D', 'o', 'c', 'k'],
    ['F', 'i', 'l', 'e', 'P', 'r', 'o', 'v', 'i', 'd', 'e', 'r'],
    ['i', 'C', 'l', 'o', 'u', 'd'],
    ['i', 'c', 'd', 'd'],
    ['K', 'n', 'o', 'w', 'l', 'e', 'd', 'g', 'e'],
    ['M', 'o', 'b', 'i', 'l', 'e', 'S', 'y', 'n', 'c'],
    ['N', 'o', 't', 'i', 'f', 'i', 'c', 'a', 't', 'i', 'o', 'n', 'C', 'e', 'n', 't', 'e', 'r'],
    ['Q', 'u', 'i', 'c', 'k', ' ', 'L', 'o', 'o', 'k'],
    ['S', 'p', 'o', 't', 'l', 'i', 'g', 'h', 't'],
    ['c', 'o', 'm', '.', 'a', 'p', 'p', 'l', 'e', '.'],
    ['A', 'p', 'p', 'l', 'e'],
    ['S', 'y', 'n', 'c', 'S', 'e', 'r', 'v', 'i', 'c', 'e', 's'],
    ['C', 'o', 'r', 'e', 'D', 'a', 't', 'a'] ]

/-- src/app.py `detect_launch_agent_orphans` skip_prefixes. -/
def launchSkipList : List Str :=
  [ ['c', 'o', 'm', '.', 'a', 'p', 'p', 'l', 'e', '.'],
    ['c', 'o', 'm', '.', 'o', 'p', 'e', 'n', 's', 's', 'h'],
    ['b', 'o', 'o', 't', 'c', 'a', 'm', 'p'],
    ['o', 'r', 'g', '.', 'g', 'p', 'g', 't', 'o', 'o', 'l', 's'] ]

/-- src/app.py `detect_cache_orphans` skip_prefixes. -/
def cacheSkipList : List Str :=
  [ ['c', 'o', 'm', '.', 'a', 'p', 'p', 'l', 'e', '.'],
    ['C', 'l', 'o', 'u', 'd', 'K', 'i', 't'],
    ['G', 'e', 'o', 'S', 'e', 'r', 'v', 'i', 'c', 'e', 's'],
    ['P', 'a', 's', 's', 'K', 'i', 't'],
    ['c', 'o', 'm', '.', 'c', 'r', 'a', 's', 'h', 'l', 'y', 't', 'i', 'c', 's'],
    ['g', 'o', 'o', 'g', 'l', 'e'],
    ['o', 'r', 'g', '.', 's', 'w', 'i', 'f', 't'] ]

/-- src/app.py `detect_logs_orphans` skip_folders. -/
def logsSkipList : List Str :=
  [ ['D', 'i', 'a', 'g', 'n', 'o', 's', 't', 'i', 'c', 'R', 'e', 'p', 'o', 'r', 't', 's'],
    ['c', 'o', 'm', '.', 'a', 'p', 'p', 'l', 'e', '.'],
    ['C', 'o', 'r', 'e', 'S', 'i', 'm', 'u', 'l', 'a', 't', 'o', 'r'],
    ['H', 'o', 'm', 'e', 'b', 'r', 'e', 'w'] ]

/-! ### The seven category detectors (src/app.py) -/

/-- Item built by `detect_container_orphans` for an orphan container. -/
def containerItem (name : Str) (size : Nat) : LeftoverItem :=
  { bundle_id := name, name := infer_app_name name,
    category := Category.containers, confidence := Confidence.high,
    size := size, selected := true }

/-- Per-entry decision of `detect_container_orphans`: exact membership
of the lower-cased folder name in the installed-identifier set, then a
`size > 0` filter. -/
def classifyContainer (installed : List Str) (name : Str) (size : Nat) :
    Option LeftoverItem :=
  let container_id := lower name
  if installed.contains container_id then none
  else if 0 < size then some (containerItem name size)
  else none

/-- src/app.py `detect_container_orphans`, over the directory entries
(folder name, directory size). -/
def detect_container_orphans (installed : List Str) (entries : List (Str × Nat)) :
    List LeftoverItem :=
  entries.filterMap (fun e => classifyContainer installed e.1 e.2)

/-- The part of a Group Containers folder name after the leading
team-id segment (`name.split('.', 1)[1]`), lower-cased; the whole
lower-cased name when no dot occurs. -/
def bundlePortion (name : Str) : Str :=
  match splitOnceDot name with
  | some p => lower p.2
  | none => lower name

/-- Ownership loop of `detect_group_container_orphans`:
`installed_id in container_id or bundle_portion in installed_id`. -/
def groupOwned (installed : List Str) (name : Str) : Bool :=
  installed.any (fun id => isSub id (lower name) || isSub (bundlePortion name) id)

/-- Item built by `detect_group_container_orphans` for an orphan. -/
def groupContainerItem (name : Str) (size : Nat) : LeftoverItem :=
  { bundle_id := name, name := infer_app_name name,
    category := Category.groupContainers, confidence := Confidence.high,
    size := size, selected := true }

/-- Per-entry decision of `detect_group_container_orphans`. -/
def classifyGroupContainer (installed : List Str) (name : Str) (size : Nat) :
    Option LeftoverItem :=
  if groupOwned installed name then none
  else if 0 < size then some (groupContainerItem name size)
  else none

/-- src/app.py `detect_group_container_orphans`. -/
def detect_group_container_orphans (installed : List Str)
    (entries : List (Str × Nat)) : List LeftoverItem :=
  entries.filterMap (fun e => classifyGroupContainer installed e.1 e.2)

/-- Skip-list filter of `detect_preference_orphans`:
`pref_name.startswith(prefix.lower())` for any listed prefix. -/
def prefSkip (pref_name : Str) : Bool :=
  prefSkipList.any (fun p => isPre (lower p) pref_name)

/-- Ownership loop of `detect_preference_orphans`:
`pref_name == installed_id or pref_name.startswith(installed_id)` or
`installed_id in pref_name`. -/
def prefOwned (installed : List Str) (pref_name : Str) : Bool :=
  installed.any (fun id =>
    pref_name == id || isPre id pref_name || isSub id pref_name)

/-- Item built by `detect_preference_orphans` for an orphan. -/
def prefItem (stem : Str) (size : Nat) : LeftoverItem :=
  { bundle_id := stem, name := infer_app_name stem,
    category := Category.preferences, confidence := Confidence.medium,
    size := size, selected := true }

/-- Per-entry decision of `detect_preference_orphans`, on the `.plist`
file's stem and byte size. -/
def classifyPref (installed : List Str) (stem : Str) (size : Nat) :
    Option LeftoverItem :=
  let pref_name := lower stem
  if prefSkip pref_name then none
  else if prefOwned installed pref_name then none
  else if 0 < size then some (prefItem stem size)
  else none

/-- src/app.py `detect_preference_orphans`. -/
def detect_preference_orphans (installed : List Str)
    (entries : List (Str × Nat)) : List LeftoverItem :=
  entries.filterMap (fun e => classifyPref installed e.1 e.2)

/-- Skip-list filter of `detect_app_support_orphans`: starts-with or
equality against the lower-cased skip entry. -/
def appSupportSkip (folder_name : Str) : Bool :=
  appSupportSkipList.any (fun k =>
    isPre (lower k) folder_name || folder_name == lower k)

/-- Ownership loop of `detect_app_support_orphans`: bidirectional
substring containment, or equality with any dot-separated token of an
installed identifier. -/
def appSupportOwned (installed : List Str) (folder_name : Str) : Bool :=
  installed.any (fun id =>
    isSub folder_name id || isSub id folder_name ||
    (splitDot id).any (fun part => lower part == folder_name))

/-- Item built by `detect_app_support_orphans` for an orphan; the
displayed name is the verbatim folder name and the identifier is the
wildcard-prefixed folder name. -/
def appSupportItem (folderName : Str) (size : Nat) : LeftoverItem :=
  { bundle_id := '*' :: '.' :: folderName, name := folderName,
    category := Category.appSupport, confidence := Confidence.medium,
    size := size, selected := true }

/-- Per-entry decision of `detect_app_support_orphans` (`size > 1024`). -/
def classifyAppSupport (installed : List Str) (folderName : Str) (size : Nat) :
    Option LeftoverItem :=
  let folder_name := lower folderName
  if appSupportSkip folder_name then none
  else if appSupportOwned installed folder_name then none
  else if 1024 < size then some (appSupportItem folderName size)
  else none

/-- src/app.py `detect_app_support_orphans`. -/
def detect_app_support_orphans (installed : List Str)
    (entries : List (Str × Nat)) : List LeftoverItem :=
  entries.filterMap (fun e => classifyAppSupport installed e.1 e.2)

/-- Skip-list filter of `detect_launch_agent_orphans`. -/
def launchSkip (plist_name : Str) : Bool :=
  launchSkipList.any (fun p => isPre (lower p) plist_name)

/-- Ownership loop of `detect_launch_agent_orphans`:
`plist_name == installed_id or installed_id in plist_name` or
`plist_name in installed_id`. -/
def launchOwned (installed : List Str) (plist_name : Str) : Bool :=
  installed.any (fun id =>
    plist_name == id || isSub id plist_name || isSub plist_name id)

/-- Item built by `detect_launch_agent_orphans` for an orphan. -/
def launchAgentItem (stem : Str) (size : Nat) : LeftoverItem :=
  { bundle_id := stem, name := infer_app_name stem,
    category := Category.launchAgents, confidence := Confidence.high,
    size := size, selected := true }

/-- Per-entry decision of `detect_launch_agent_orphans`; the source has
no size filter for this category. -/
def classifyLaunchAgent (installed : List Str) (stem : Str) (size : Nat) :
    Option LeftoverItem :=
  let plist_name := lower stem
  if launchSkip plist_name then none
  else if launchOwned installed plist_name then none
  else some (launchAgentItem stem size)

/-- src/app.py `detect_launch_agent_orphans`, over the `.plist` entries
of both scanned directories. -/
def detect_launch_agent_orphans (installed : List Str)
    (entries : List (Str × Nat)) : List LeftoverItem :=
  entries.filterMap (fun e => classifyLaunchAgent installed e.1 e.2)

/-- Skip-list filter of `detect_cache_orphans`. -/
def cacheSkip (cache_name : Str) : Bool :=
  cacheSkipList.any (fun p => isPre (lower p) cache_name)

/-- Ownership loop of `detect_cache_orphans`:
`cache_name == installed_id or installed_id in cache_name` or
`cache_name in installed_id`. -/
def cacheOwned (installed : List Str) (cache_name : Str) : Bool :=
  installed.any (fun id =>
    cache_name == id || isSub id cache_name || isSub cache_name id)

/-- Item built by `detect_cache_orphans` for an orphan. -/
def cacheItem (name : Str) (size : Nat) : LeftoverItem :=
  { bundle_id := name, name := infer_app_name name,
    category := Category.caches, confidence := Confidence.medium,
    size := size, selected := true }

/-- Per-entry decision of `detect_cache_orphans` (`size > 10240`). -/
def classifyCache (installed : List Str) (name : Str) (size : Nat) :
    Option LeftoverItem :=
  let cache_name := lower name
  if cacheSkip cache_name then none
  else if cacheOwned installed cache_name then none
  else if 10240 < size then some (cacheItem name size)
  else none

/-- src/app.py `detect_cache_orphans`. -/
def detect_cache_orphans (installed : List Str)
    (entries : List (Str × Nat)) : List LeftoverItem :=
  entries.filterMap (fun e => classifyCache installed e.1 e.2)

/-- Skip-list filter of `detect_logs_orphans`: starts-with or equality
against the lower-cased skip entry. -/
def logsSkip (log_name : Str) : Bool :=
  logsSkipList.any (fun k =>
    isPre (lower k) log_name || log_name == lower k)

/-- Ownership loop of `detect_logs_orphans`: bidirectional substring
containment, or equality with any dot-separated token of an installed
identifier. -/
def logsOwned (installed : List Str) (log_name : Str) : Bool :=
  installed.any (fun id =>
    isSub log_name id || isSub id log_name ||
    (splitDot id).any (fun part => lower part == log_name))

/-- Item built by `detect_logs_orphans` for an orphan; low confidence
and deliberately not pre-selected. -/
def logsItem (folderName : Str) (size : Nat) : LeftoverItem :=
  { bundle_id := '*' :: '.' :: folderName, name := folderName,
    category := Category.logs, confidence := Confidence.low,
    size := size, selected := false }

/-- Per-entry decision of `detect_logs_orphans` (`size > 1024`). -/
def classifyLogs (installed : List Str) (folderName : Str) (size : Nat) :
    Option LeftoverItem :=
  let log_name := lower folderName
  if logsSkip log_name then none
  else if logsOwned installed log_name then none
  else if 1024 < size then some (logsItem folderName size)
  else none

/-- src/app.py `detect_logs_orphans`. -/
def detect_logs_orphans (installed : List Str)
    (entries : List (Str × Nat)) : List LeftoverItem :=
  entries.filterMap (fun e => classifyLogs installed e.1 e.2)

/-! ### InstalledAppIndex (src/app.py `get_installed_bundle_ids`)

The three discovery strategies perform I/O (a content-index query and
two directory scans); each is abstracted into the list of raw identifier
strings it successfully read, or `none` when the strategy failed and its
surrounding `try`/`except` discarded it.  The body below reproduces what
the source does with those outcomes: each non-empty raw identifier is
lower-cased and added to one shared set, and a failed strategy
contributes nothing. -/

/-- Adding one raw identifier to the set: skipped when falsy (empty),
otherwise `bundle_ids.add(bundle_id.lower())`. -/
def addBundleId (acc : Finset Str) (raw : Str) : Finset Str :=
  if raw = [] then acc else insert (lower raw) acc

/-- One discovery strategy's whole contribution; `none` models the
strategy failing into its `except` clause. -/
def addStrategy (acc : Finset Str) (res : Option (List Str)) : Finset Str :=
  match res with
  | none => acc
  | some raws => raws.foldl addBundleId acc

/-- src/app.py `get_installed_bundle_ids`: union of the three
independent strategies' normalized contributions. -/
def get_installed_bundle_ids (m1 m2 m3 : Option (List Str)) : Finset Str :=
  addStrategy (addStrategy (addStrategy ∅ m1) m2) m3

/-! ### Spec-side definitions, for comparison with the source -/

/-- Modelled from the spec: the Preferences ownership rule as the claim
states it — the normalized filename equals an installed identifier, or
is a prefix of one, or appears as a substring of one. -/
def claimPrefOwned (installed : List Str) (pref_name : Str) : Bool :=
  installed.any (fun id =>
    pref_name == id || isPre pref_name id || isSub pref_name id)

/-- Modelled from the spec: the Group Containers ownership rule as the
claim states it — bidirectional substring containment of each installed
identifier against both the full folder name and its suffix. -/
def claimGroupOwned (installed : List Str) (name suffix : Str) : Bool :=
  installed.any (fun id =>
    isSub (lower name) id || isSub id (lower name) ||
    isSub (lower suffix) id || isSub id (lower suffix))

/-- Modelled from the spec: insert a separating space at each
lowercase-to-uppercase letter boundary. -/
def specCamelSplit : Str → Str
  | [] => []
  | [a] => [a]
  | a :: b :: rest =>
    if reLower a && reUpper b then a :: ' ' :: specCamelSplit (b :: rest)
    else a :: specCamelSplit (b :: rest)

/-! ### Concrete inputs used in counterexamples and witnesses -/

/-- The identifier com.old.tool (stem of com.old.tool.plist). -/
def strComOldTool : Str := ['c', 'o', 'm', '.', 'o', 'l', 'd', '.', 't', 'o', 'o', 'l']

/-- The installed identifier com.old.tool.helper. -/
def strComOldToolHelper : Str :=
  ['c', 'o', 'm', '.', 'o', 'l', 'd', '.', 't', 'o', 'o', 'l', '.', 'h', 'e', 'l', 'p', 'e', 'r']

/-- The identifier MyCoolApp. -/
def strMyCoolApp : Str := ['M', 'y', 'C', 'o', 'o', 'l', 'A', 'p', 'p']

/-- The display name My Cool App. -/
def strMyCoolAppOut : Str := ['M', 'y', ' ', 'C', 'o', 'o', 'l', ' ', 'A', 'p', 'p']

/-- The identifier unknown_app. -/
def strUnknownUnderscoreApp : Str :=
  ['u', 'n', 'k', 'n', 'o', 'w', 'n', '_', 'a', 'p', 'p']

/-- The skip-listed preference name com.apple.foo. -/
def strComAppleFoo : Str :=
  ['c', 'o', 'm', '.', 'a', 'p', 'p', 'l', 'e', '.', 'f', 'o', 'o']

/-- A neutral artifact name matching no skip-list entry. -/
def strZzz : Str := ['z', 'z', 'z']

/-- A neutral launch-agent name matching no skip-list entry. -/
def strFoo : Str := ['f', 'o', 'o']

/-! ### Helper lemmas -/

/-- Two booleans agreeing as propositions are equal. -/
theorem bool_eq_of_iff {a b : Bool} (h : a = true ↔ b = true) : a = b := by
  cases a <;> cases b <;> simp_all

/-- Pointwise equal predicates give equal `List.any`. -/
theorem any_congr {α : Type} {p q : α → Bool} :
    ∀ (l : List α), (∀ a ∈ l, p a = q a) → l.any p = l.any q := by
  intro l h
  induction l with
  | nil => rfl
  | cons a t ih =>
    simp only [List.any_cons, h a (List.mem_cons_self a t),
      ih (fun x hx => h x (List.mem_cons_of_mem a hx))]

/-- Substring containment is transitive. -/
theorem isSub_trans {a b c : Str} (h1 : isSub a b = true)
    (h2 : isSub b c = true) : isSub a c = true := by
  simp only [isSub, decide_eq_true_iff] at h1 h2 ⊢
  exact h1.trans h2

/-- Splitting at the first dot of `team ++ '.' :: suffix` when `team`
holds no dot recovers the two components. -/
theorem splitOnceDot_append (team suffix : Str) (h : '.' ∉ team) :
    splitOnceDot (team ++ '.' :: suffix) = some (team, suffix) := by
  induction team with
  | nil => simp [splitOnceDot]
  | cons c t ih =>
    have hc : ¬ c = '.' := fun e => h (e ▸ List.mem_cons_self c t)
    have ht : '.' ∉ t := fun m => h (List.mem_cons_of_mem c m)
    simp [splitOnceDot, hc, ih ht]

/-- The lower-cased suffix is a substring of the lower-cased full
folder name. -/
theorem isSub_lower_suffix (team suffix : Str) :
    isSub (lower suffix) (lower (team ++ '.' :: suffix)) = true := by
  simp only [isSub, decide_eq_true_iff, lower, List.map_append, List.map_cons]
  exact ⟨team.map Char.toLower ++ [Char.toLower '.'], [], by simp⟩

/-- The Preferences ownership loop, as a proposition. -/
theorem prefOwned_iff (installed : List Str) (n : Str) :
    prefOwned installed n = true ↔
      ∃ id ∈ installed, n = id ∨ isPre id n = true ∨ isSub id n = true := by
  simp [prefOwned, List.any_eq_true, or_assoc]

/-- Python's dot-split always produces at least one part. -/
theorem splitDot_ne_nil (s : Str) : splitDot s ≠ [] := by
  cases s with
  | nil => simp [splitDot]
  | cons c t =>
    unfold splitDot
    split
    · simp
    · split <;> simp

/-- A character in the regex class `[A-Z]` is not in `[a-z]`. -/
theorem reLower_of_reUpper {c : Char} (h : reUpper c = true) :
    reLower c = false := by
  simp only [reUpper, reLower, decide_eq_true_iff] at h ⊢
  simp only [decide_eq_false_iff_not]
  omega

/-- The spec-side camel splitter never inserts a space after a leading
uppercase character. -/
theorem specCamelSplit_upper (b : Char) (rest : Str) (h : reUpper b = true) :
    specCamelSplit (b :: rest) = b :: specCamelSplit rest := by
  cases rest with
  | nil => rfl
  | cons c t => simp [specCamelSplit, reLower_of_reUpper h]

/-- The source's non-overlapping regex replacement agrees with the
spec's space-at-every-boundary description. -/
theorem reSubCamel_eq_spec : ∀ (s : Str), reSubCamel s = specCamelSplit s := by
  intro s
  induction s using reSubCamel.induct with
  | case1 => rfl
  | case2 a => rfl
  | case3 a b rest h ih =>
    have hb : reUpper b = true := by
      simp only [Bool.and_eq_true] at h
      exact h.2
    simp [reSubCamel, specCamelSplit, h, specCamelSplit_upper b rest hb, ih]
  | case4 a b rest h ih =>
    simp only [reSubCamel, specCamelSplit, ih]
    rw [if_neg h, if_neg h]

/-- Elements accumulated by the strategy fold are lower-casings of read
identifiers, or were present before. -/
theorem mem_foldl_addBundleId :
    ∀ (raws : List Str) (acc : Finset Str) (x : Str),
      x ∈ raws.foldl addBundleId acc → x ∈ acc ∨ ∃ r, x = lower r := by
  intro raws
  induction raws with
  | nil => intro acc x h; exact Or.inl h
  | cons a t ih =>
    intro acc x h
    rcases ih (addBundleId acc a) x h with h' | h'
    · unfold addBundleId at h'
      split at h'
      · exact Or.inl h'
      · rcases Finset.mem_insert.mp h' with e | e
        · exact Or.inr ⟨a, e⟩
        · exact Or.inl e
    · exact h'.elim (fun r hr => Or.inr ⟨r, hr⟩)

/-- Elements contributed by one strategy are lower-casings of read
identifiers, or were present before. -/
theorem mem_addStrategy (acc : Finset Str) (res : Option (List Str)) (x : Str) :
    x ∈ addStrategy acc res → x ∈ acc ∨ ∃ r, x = lower r := by
  cases res with
  | none => exact Or.inl
  | some raws => exact mem_foldl_addBundleId raws acc x

/-- Inversion for the Containers per-entry decision. -/
theorem classifyContainer_inv (installed : List Str) (name : Str) (size : Nat)
    (item : LeftoverItem) (h : classifyContainer installed name size = some item) :
    item = containerItem name size ∧ 0 < size := by
  simp only [classifyContainer] at h
  split at h
  · exact absurd h (by simp)
  · split at h
    · exact ⟨(Option.some_inj.mp h).symm, by assumption⟩
    · exact absurd h (by simp)

/-- Inversion for the Group Containers per-entry decision. -/
theorem classifyGroupContainer_inv (installed : List Str) (name : Str) (size : Nat)
    (item : LeftoverItem) (h : classifyGroupContainer installed name size = some item) :
    item = groupContainerItem name size ∧ 0 < size := by
  simp only [classifyGroupContainer] at h
  split at h
  · exact absurd h (by simp)
  · split at h
    · exact ⟨(Option.some_inj.mp h).symm, by assumption⟩
    · exact absurd h (by simp)

/-- Inversion for the Preferences per-entry decision. -/
theorem classifyPref_inv (installed : List Str) (stem : Str) (size : Nat)
    (item : LeftoverItem) (h : classifyPref installed stem size = some item) :
    item = prefItem stem size ∧ 0 < size := by
  simp only [classifyPref] at h
  split at h
  · exact absurd h (by simp)
  · split at h
    · exact absurd h (by simp)
    · split at h
      · exact ⟨(Option.some_inj.mp h).symm, by assumption⟩
      · exact absurd h (by simp)

/-- Inversion for the Application Support per-entry decision. -/
theorem classifyAppSupport_inv (installed : List Str) (folderName : Str) (size : Nat)
    (item : LeftoverItem) (h : classifyAppSupport installed folderName size = some item) :
    item = appSupportItem folderName size ∧ 1024 < size := by
  simp only [classifyAppSupport] at h
  split at h
  · exact absurd h (by simp)
  · split at h
    · exact absurd h (by simp)
    · split at h
      · exact ⟨(Option.some_inj.mp h).symm, by assumption⟩
      · exact absurd h (by simp)

/-- Inversion for the Launch Agents per-entry decision; no size bound
is available because the source applies no size filter here. -/
theorem classifyLaunchAgent_inv (installed : List Str) (stem : Str) (size : Nat)
    (item : LeftoverItem) (h : classifyLaunchAgent installed stem size = some item) :
    item = launchAgentItem stem size := by
  simp only [classifyLaunchAgent] at h
  split at h
  · exact absurd h (by simp)
  · split at h
    · exact absurd h (by simp)
    · exact (Option.some_inj.mp h).symm

/-- Inversion for the Caches per-entry decision. -/
theorem classifyCache_inv (installed : List Str) (name : Str) (size : Nat)
    (item : LeftoverItem) (h : classifyCache installed name size = some item) :
    item = cacheItem name size ∧ 10240 < size := by
  simp only [classifyCache] at h
  split at h
  · exact absurd h (by simp)
  · split at h
    · exact absurd h (by simp)
    · split at h
      · exact ⟨(Option.some_inj.mp h).symm, by assumption⟩
      · exact absurd h (by simp)

/-- Inversion for the Logs per-entry decision. -/
theorem classifyLogs_inv (installed : List Str) (folderName : Str) (size : Nat)
    (item : LeftoverItem) (h : classifyLogs installed folderName size = some item) :
    item = logsItem folderName size ∧ 1024 < size := by
  simp only [classifyLogs] at h
  split at h
  · exact absurd h (by simp)
  · split at h
    · exact absurd h (by simp)
    · split at h
      · exact ⟨(Option.some_inj.mp h).symm, by assumption⟩
      · exact absurd h (by simp)

/-! ### Claim theorems -/

/-- C1 (counterexample): under the claim's ownership rule the file
com.old.tool.plist with installed index com.old.tool.helper counts as
owned and must not be emitted, yet the source's Preferences detector
treats it as an orphan and emits a LeftoverItem for it. -/
theorem pref_substring_claim_cex :
    claimPrefOwned [strComOldToolHelper] (lower strComOldTool) = true ∧
    prefOwned [strComOldToolHelper] (lower strComOldTool) = false ∧
    (classifyPref [strComOldToolHelper] strComOldTool 10).isSome = true := by
  decide

/-- C1 (amended): the Preferences detector emits no LeftoverItem for a
non-skip-listed file of positive size exactly when some installed
identifier equals the normalized filename, is a prefix of it, or occurs
as a substring of it (the containment directions are the reverse of the
claim's); in particular com.old.tool.plist with installed index
com.old.tool.helper is emitted. -/
theorem pref_owned_direction :
    (∀ (installed : List Str) (stem : Str) (size : Nat),
      prefSkip (lower stem) = false → 0 < size →
      ((classifyPref installed stem size).isSome = false ↔
        ∃ id ∈ installed, lower stem = id ∨ isPre id (lower stem) = true ∨
          isSub id (lower stem) = true)) ∧
    (classifyPref [strComOldToolHelper] strComOldTool 10).isSome = true := by
  constructor
  · intro installed stem size hskip hsize
    have hiff := prefOwned_iff installed (lower stem)
    have hcl : (classifyPref installed stem size).isSome = false ↔
        prefOwned installed (lower stem) = true := by
      cases h : prefOwned installed (lower stem) <;>
        simp [classifyPref, hskip, h, hsize]
    exact hcl.trans hiff
  · decide

/-- C1 (witness for the amended theorem): with an empty index a neutral
preference file of positive size is emitted. -/
theorem pref_owned_direction_w :
    (classifyPref ([] : List Str) strZzz 5).isSome = false ↔
      ∃ id ∈ ([] : List Str), lower strZzz = id ∨ isPre id (lower strZzz) = true ∨
        isSub id (lower strZzz) = true :=
  pref_owned_direction.1 [] strZzz 5 (by decide) (by decide)

/-- C2: for a Group Containers folder of the form team-id dot suffix,
the source's ownership loop (installed-in-full-name OR
suffix-in-installed) coincides with the claim's bidirectional substring
containment applied to both the full folder name and the suffix. -/
theorem group_bidirectional_equiv :
    ∀ (installed : List Str) (team suffix : Str), '.' ∉ team →
      groupOwned installed (team ++ '.' :: suffix) =
        claimGroupOwned installed (team ++ '.' :: suffix) suffix := by
  intro installed team suffix hteam
  have hbp : bundlePortion (team ++ '.' :: suffix) = lower suffix := by
    unfold bundlePortion
    rw [splitOnceDot_append team suffix hteam]
  have hsfx := isSub_lower_suffix team suffix
  unfold groupOwned claimGroupOwned
  rw [hbp]
  apply any_congr
  intro id _
  apply bool_eq_of_iff
  have t1 : isSub (lower (team ++ '.' :: suffix)) id = true →
      isSub (lower suffix) id = true := fun h => isSub_trans hsfx h
  have t2 : isSub id (lower suffix) = true →
      isSub id (lower (team ++ '.' :: suffix)) = true := fun h => isSub_trans h hsfx
  simp only [Bool.or_eq_true]
  constructor
  · tauto
  · tauto

/-- C2 (witness): the equivalence evaluated on a concrete folder
tm.app against a one-element index. -/
theorem group_bidirectional_equiv_w :
    groupOwned [['x']] (['t', 'm'] ++ '.' :: ['a', 'p', 'p']) =
      claimGroupOwned [['x']] (['t', 'm'] ++ '.' :: ['a', 'p', 'p']) ['a', 'p', 'p'] :=
  group_bidirectional_equiv [['x']] ['t', 'm'] ['a', 'p', 'p'] (by decide)

/-- C3 (counterexample): with an empty installed index, the Preferences
detector still refuses to emit the skip-listed file com.apple.foo.plist
of size 100, though 100 is above the category's threshold of 0. -/
theorem maximal_orphan_cex :
    (classifyPref [] strComAppleFoo 100).isSome = false ∧ (0 : Nat) < 100 := by
  decide

/-- C3 (amended): given an empty installed index, every artifact that
passes its category's skip-list filter and is above the category's size
threshold (no threshold for Launch Agents) is emitted by that category's
detector. -/
theorem maximal_orphan_amended :
    ∀ (name : Str) (size : Nat),
      (0 < size → (classifyContainer [] name size).isSome = true) ∧
      (0 < size → (classifyGroupContainer [] name size).isSome = true) ∧
      (prefSkip (lower name) = false → 0 < size →
        (classifyPref [] name size).isSome = true) ∧
      (appSupportSkip (lower name) = false → 1024 < size →
        (classifyAppSupport [] name size).isSome = true) ∧
      (launchSkip (lower name) = false →
        (classifyLaunchAgent [] name size).isSome = true) ∧
      (cacheSkip (lower name) = false → 10240 < size →
        (classifyCache [] name size).isSome = true) ∧
      (logsSkip (lower name) = false → 1024 < size →
        (classifyLogs [] name size).isSome = true) := by
  intro name size
  refine ⟨fun h => ?_, fun h => ?_, fun hs h => ?_, fun hs h => ?_,
    fun hs => ?_, fun hs h => ?_, fun hs h => ?_⟩
  · simp [classifyContainer, h]
  · simp [classifyGroupContainer, groupOwned, h]
  · simp [classifyPref, hs, prefOwned, h]
  · simp [classifyAppSupport, hs, appSupportOwned, h]
  · simp [classifyLaunchAgent, hs, launchOwned]
  · simp [classifyCache, hs, cacheOwned, h]
  · simp [classifyLogs, hs, logsOwned, h]

/-- C3 (witness for the amended theorem): all seven detectors emit the
neutral artifact zzz of size 20000 against the empty index. -/
theorem maximal_orphan_amended_w :
    (classifyContainer [] strZzz 20000).isSome = true ∧
    (classifyGroupContainer [] strZzz 20000).isSome = true ∧
    (classifyPref [] strZzz 20000).isSome = true ∧
    (classifyAppSupport [] strZzz 20000).isSome = true ∧
    (classifyLaunchAgent [] strZzz 20000).isSome = true ∧
    (classifyCache [] strZzz 20000).isSome = true ∧
    (classifyLogs [] strZzz 20000).isSome = true := by
  have h := maximal_orphan_amended strZzz 20000
  exact ⟨h.1 (by decide), h.2.1 (by decide), h.2.2.1 (by decide) (by decide),
    h.2.2.2.1 (by decide) (by decide), h.2.2.2.2.1 (by decide),
    h.2.2.2.2.2.1 (by decide) (by decide), h.2.2.2.2.2.2 (by decide) (by decide)⟩

/-- C4 (counterexample): the Launch Agents detector applies no size
filter, so a zero-byte orphan plist is emitted, contradicting the claim
that no zero-byte artifact is ever emitted. -/
theorem launch_zero_size_cex :
    (detect_launch_agent_orphans [] [(strFoo, 0)]).any
      (fun it => it.size == 0) = true ∧
    (detect_launch_agent_orphans [] [(strFoo, 0)]).length = 1 := by
  decide

/-- C4 (amended): every LeftoverItem emitted by the six detectors other
than Launch Agents has a size strictly above its category's minimum-size
threshold (Containers, Group Containers and Preferences above 0,
Application Support and Logs above 1024 bytes, Caches above 10240
bytes); the Launch Agents detector applies no size filter and can emit
zero-byte artifacts. -/
theorem size_threshold_amended :
    ∀ (installed : List Str) (entries : List (Str × Nat)) (item : LeftoverItem),
      (item ∈ detect_container_orphans installed entries → 0 < item.size) ∧
      (item ∈ detect_group_container_orphans installed entries → 0 < item.size) ∧
      (item ∈ detect_preference_orphans installed entries → 0 < item.size) ∧
      (item ∈ detect_app_support_orphans installed entries → 1024 < item.size) ∧
      (item ∈ detect_cache_orphans installed entries → 10240 < item.size) ∧
      (item ∈ detect_logs_orphans installed entries → 1024 < item.size) := by
  intro installed entries item
  refine ⟨fun h => ?_, fun h => ?_, fun h => ?_, fun h => ?_, fun h => ?_,
    fun h => ?_⟩
  · simp only [detect_container_orphans, List.mem_filterMap] at h
    obtain ⟨e, -, hc⟩ := h
    obtain ⟨he, hs⟩ := classifyContainer_inv installed e.1 e.2 item hc
    rw [he]; exact hs
  · simp only [detect_group_container_orphans, List.mem_filterMap] at h
    obtain ⟨e, -, hc⟩ := h
    obtain ⟨he, hs⟩ := classifyGroupContainer_inv installed e.1 e.2 item hc
    rw [he]; exact hs
  · simp only [detect_preference_orphans, List.mem_filterMap] at h
    obtain ⟨e, -, hc⟩ := h
    obtain ⟨he, hs⟩ := classifyPref_inv installed e.1 e.2 item hc
    rw [he]; exact hs
  · simp only [detect_app_support_orphans, List.mem_filterMap] at h
    obtain ⟨e, -, hc⟩ := h
    obtain ⟨he, hs⟩ := classifyAppSupport_inv installed e.1 e.2 item hc
    rw [he]; exact hs
  · simp only [detect_cache_orphans, List.mem_filterMap] at h
    obtain ⟨e, -, hc⟩ := h
    obtain ⟨he, hs⟩ := classifyCache_inv installed e.1 e.2 item hc
    rw [he]; exact hs
  · simp only [detect_logs_orphans, List.mem_filterMap] at h
    obtain ⟨e, -, hc⟩ := h
    obtain ⟨he, hs⟩ := classifyLogs_inv installed e.1 e.2 item hc
    rw [he]; exact hs

/-- C4 (witness for the amended theorem): the container item emitted
for the entry (zzz, 5) has positive size. -/
theorem size_threshold_amended_w :
    0 < (containerItem strZzz 5).size :=
  (size_threshold_amended [] [(strZzz, 5)] (containerItem strZzz 5)).1 (by decide)

/-- C5: every item emitted by any of the seven detectors respects the
confidence-to-selection invariant: low confidence is never pre-selected,
high or medium confidence always is. -/
theorem confidence_selection_inv :
    ∀ (installed : List Str) (entries : List (Str × Nat)) (item : LeftoverItem),
      (item ∈ detect_container_orphans installed entries ∨
       item ∈ detect_group_container_orphans installed entries ∨
       item ∈ detect_preference_orphans installed entries ∨
       item ∈ detect_app_support_orphans installed entries ∨
       item ∈ detect_launch_agent_orphans installed entries ∨
       item ∈ detect_cache_orphans installed entries ∨
       item ∈ detect_logs_orphans installed entries) →
      ((item.confidence = Confidence.low → item.selected = false) ∧
       ((item.confidence = Confidence.high ∨ item.confidence = Confidence.medium) →
         item.selected = true)) := by
  intro installed entries item h
  rcases h with h | h | h | h | h | h | h
  · simp only [detect_container_orphans, List.mem_filterMap] at h
    obtain ⟨e, -, hc⟩ := h
    rw [(classifyContainer_inv installed e.1 e.2 item hc).1]
    simp [containerItem]
  · simp only [detect_group_container_orphans, List.mem_filterMap] at h
    obtain ⟨e, -, hc⟩ := h
    rw [(classifyGroupContainer_inv installed e.1 e.2 item hc).1]
    simp [groupContainerItem]
  · simp only [detect_preference_orphans, List.mem_filterMap] at h
    obtain ⟨e, -, hc⟩ := h
    rw [(classifyPref_inv installed e.1 e.2 item hc).1]
    simp [prefItem]
  · simp only [detect_app_support_orphans, List.mem_filterMap] at h
    obtain ⟨e, -, hc⟩ := h
    rw [(classifyAppSupport_inv installed e.1 e.2 item hc).1]
    simp [appSupportItem]
  · simp only [detect_launch_agent_orphans, List.mem_filterMap] at h
    obtain ⟨e, -, hc⟩ := h
    rw [classifyLaunchAgent_inv installed e.1 e.2 item hc]
    simp [launchAgentItem]
  · simp only [detect_cache_orphans, List.mem_filterMap] at h
    obtain ⟨e, -, hc⟩ := h
    rw [(classifyCache_inv installed e.1 e.2 item hc).1]
    simp [cacheItem]
  · simp only [detect_logs_orphans, List.mem_filterMap] at h
    obtain ⟨e, -, hc⟩ := h
    rw [(classifyLogs_inv installed e.1 e.2 item hc).1]
    simp [logsItem]

/-- C5 (witness): the invariant evaluated on the low-confidence logs
item emitted for the entry (zzz, 2000). -/
theorem confidence_selection_inv_w :
    ((logsItem strZzz 2000).confidence = Confidence.low →
      (logsItem strZzz 2000).selected = false) ∧
    (((logsItem strZzz 2000).confidence = Confidence.high ∨
      (logsItem strZzz 2000).confidence = Confidence.medium) →
      (logsItem strZzz 2000).selected = true) :=
  confidence_selection_inv [] [(strZzz, 2000)] (logsItem strZzz 2000)
    (Or.inr (Or.inr (Or.inr (Or.inr (Or.inr (Or.inr (by decide)))))))

/-- C6: the category size thresholds are strict: an orphaned,
non-skip-listed Application Support folder of exactly 1024 bytes is
excluded while one of 1025 bytes is included, and an orphaned Caches
folder of exactly 10240 bytes is excluded while one of 10241 bytes is
included. -/
theorem threshold_strictness :
    ∀ (installed : List Str) (name : Str),
      appSupportSkip (lower name) = false →
      appSupportOwned installed (lower name) = false →
      cacheSkip (lower name) = false →
      cacheOwned installed (lower name) = false →
      ((classifyAppSupport installed name 1024).isSome = false ∧
       (classifyAppSupport installed name 1025).isSome = true ∧
       (classifyCache installed name 10240).isSome = false ∧
       (classifyCache installed name 10241).isSome = true) := by
  intro installed name h1 h2 h3 h4
  refine ⟨?_, ?_, ?_, ?_⟩ <;> simp [classifyAppSupport, classifyCache, h1, h2, h3, h4]

/-- C6 (witness): the boundary behavior on the concrete orphaned folder
zzz against the empty index. -/
theorem threshold_strictness_w :
    (classifyAppSupport [] strZzz 1024).isSome = false ∧
    (classifyAppSupport [] strZzz 1025).isSome = true ∧
    (classifyCache [] strZzz 10240).isSome = false ∧
    (classifyCache [] strZzz 10241).isSome = true :=
  threshold_strictness [] strZzz (by decide) (by decide) (by decide) (by decide)

/-- C7: for every non-empty identifier, the name inferencer takes the
final dot-separated segment, inserts a space at each lowercase-to-
uppercase boundary, replaces dashes and underscores with spaces and
title-cases the result; MyCoolApp yields My Cool App and the empty
identifier yields the fixed placeholder label. -/
theorem infer_app_name_spec :
    (∀ s : Str, s ≠ [] →
      infer_app_name s =
        titleStr (replaceChar '_' ' ' (replaceChar '-' ' '
          (specCamelSplit ((splitDot s).getLastD []))))) ∧
    infer_app_name strMyCoolApp = strMyCoolAppOut ∧
    infer_app_name [] = unknownAppLabel := by
  refine ⟨?_, by decide, by decide⟩
  intro s hs
  have hlen : 1 ≤ (splitDot s).length :=
    Nat.one_le_iff_ne_zero.mpr (fun e => splitDot_ne_nil s (List.eq_nil_of_length_eq_zero e))
  simp only [infer_app_name, hs, if_false, hlen, if_true, reSubCamel_eq_spec]

/-- C7 (witness): the pipeline equality evaluated at MyCoolApp. -/
theorem infer_app_name_spec_w :
    infer_app_name strMyCoolApp =
      titleStr (replaceChar '_' ' ' (replaceChar '-' ' '
        (specCamelSplit ((splitDot strMyCoolApp).getLastD [])))) :=
  infer_app_name_spec.1 strMyCoolApp (by decide)

/-- C8: the installed-app index consists of lower-cased identifiers;
the failure of any one discovery strategy is indistinguishable from that
strategy reading nothing, leaving the other strategies' contributions
intact; and the overall result may be the empty set. -/
theorem installed_index_contract :
    (∀ (m1 m2 m3 : Option (List Str)) (x : Str),
      x ∈ get_installed_bundle_ids m1 m2 m3 → ∃ r, x = lower r) ∧
    (∀ (m2 m3 : Option (List Str)),
      get_installed_bundle_ids none m2 m3 = get_installed_bundle_ids (some []) m2 m3) ∧
    (∀ (m1 m3 : Option (List Str)),
      get_installed_bundle_ids m1 none m3 = get_installed_bundle_ids m1 (some []) m3) ∧
    (∀ (m1 m2 : Option (List Str)),
      get_installed_bundle_ids m1 m2 none = get_installed_bundle_ids m1 m2 (some [])) ∧
    get_installed_bundle_ids none none none = ∅ := by
  refine ⟨?_, fun m2 m3 => rfl, fun m1 m3 => rfl, fun m1 m2 => rfl, rfl⟩
  intro m1 m2 m3 x h
  unfold get_installed_bundle_ids at h
  rcases mem_addStrategy _ m3 x h with h | h
  · rcases mem_addStrategy _ m2 x h with h | h
    · rcases mem_addStrategy _ m1 x h with h | h
      · exact absurd h (Finset.not_mem_empty x)
      · exact h
    · exact h
  · exact h

/-- C8 (witness): a lower-cased identifier read by the first strategy
is of lower-cased form. -/
theorem installed_index_contract_w :
    ∃ r, lower strMyCoolApp = lower r :=
  installed_index_contract.1 (some [strMyCoolApp]) none none
    (lower strMyCoolApp) (by decide)

/-- C9: the ownership predicate of the Logs detector is extensionally
equal to the token-level ownership predicate of the Application Support
detector. -/
theorem logs_appsupport_owned_eq :
    ∀ (installed : List Str) (name : Str),
      appSupportOwned installed name = logsOwned installed name := by
  intro installed name
  rfl

/-- C10 (counterexample): the non-empty identifier unknown_app, whose
final dot-segment is non-empty, also maps to the placeholder string
Unknown App, so the placeholder is not returned only for the wholly
empty input. -/
theorem infer_placeholder_cex :
    infer_app_name strUnknownUnderscoreApp = unknownAppLabel ∧
    strUnknownUnderscoreApp ≠ [] ∧
    (splitDot strUnknownUnderscoreApp).getLastD [] ≠ [] := by
  decide

/-- C10 (amended): for every non-empty identifier whose final
dot-separated segment is empty, the name inferencer returns the empty
string rather than taking the placeholder branch; the placeholder
branch itself is taken exactly for the empty input, though the pipeline
can coincidentally produce the same placeholder string for other inputs
such as unknown_app. -/
theorem infer_empty_segment_amended :
    (∀ s : Str, s ≠ [] → (splitDot s).getLastD [] = [] →
      infer_app_name s = []) ∧
    infer_app_name [] = unknownAppLabel := by
  refine ⟨?_, by decide⟩
  intro s hs hlast
  have hlen : 1 ≤ (splitDot s).length :=
    Nat.one_le_iff_ne_zero.mpr (fun e => splitDot_ne_nil s (List.eq_nil_of_length_eq_zero e))
  simp only [infer_app_name, hs, if_false, hlen, if_true, hlast]
  rfl

/-- C10 (witness for the amended theorem): the identifier consisting of
the letter a followed by a dot yields the empty label. -/
theorem infer_empty_segment_amended_w :
    infer_app_name ['a', '.'] = [] :=
  infer_empty_segment_amended.1 ['a', '.'] (by decide) (by decide)

end Qleaner
